import Mathlib

/-!
Verification of the `ml_insights` spline-calibration code
(`calibration_utils.py` and `calibration.py`).

Machine floats are modelled by exact rationals (`ℚ`); numpy arrays by
`List ℚ`; Python exceptions by an explicit `Except` result; the opaque
scikit-learn collaborators (regressors, fold splitter, shuffling) by
explicitly passed functions, constrained only by the properties their
contracts guarantee.
-/

namespace MLInsights

/-- Exceptions that the modelled Python code can raise.  `notFittedError` and
`insufficientDataError` are included so that statements about them can be
formed even though the code never raises them. -/
inductive PyExc
  | notFittedError
  | attributeError
  | typeError
  | indexError
  | nameError
  | insufficientDataError
deriving DecidableEq, Repr

/-! ## Spline basis builder (`_natural_cubic_spline_basis_expansion`, lines 14-35) -/

/-- `np.maximum(v, 0)` for one entry. -/
def pospart (x : ℚ) : ℚ := max x 0

/-- The closure `func_d` built by `make_func_d(k)` (lines 21-26): `k` is the
1-indexed knot index used by the source, so it reads `knots[k-1]` and the last
knot `knots[-1]`. -/
def func_d (knots : List ℚ) (k : Nat) (x : ℚ) : ℚ :=
  let kK := knots.getD (knots.length - 1) 0
  let kk := knots.getD (k - 1) 0
  (pospart (x - kk) ^ 3 - pospart (x - kK) ^ 3) / (kK - kk)

/-- The closure `func_H` built by `make_func_H(k)` (lines 27-30):
`d_k(x) - d_{K-1}(x)` with `K = len(knots)`. -/
def func_H (knots : List ℚ) (k : Nat) (x : ℚ) : ℚ :=
  func_d knots k x - func_d knots (knots.length - 1) x

/-- Entry of the basis matrix in column `j` (0-based), for one score `x`:
column 0 is the constant 1 (line 18), column 1 is the score itself (line 19),
and column `i+1` for `i = 1 .. K-2` is `func_H i` (lines 32-34), i.e. column
`j` holds `func_H (j-1)` for `2 ≤ j ≤ K-1`. -/
def ncsEntry (knots : List ℚ) (x : ℚ) (j : Nat) : ℚ :=
  if j = 0 then 1
  else if j = 1 then x
  else func_H knots (j - 1) x

/-- One row of the basis matrix: the `K` column entries for a single score. -/
def ncsBasisRow (knots : List ℚ) (x : ℚ) : List ℚ :=
  (List.range knots.length).map (ncsEntry knots x)

/-- `_natural_cubic_spline_basis_expansion(xpts, knots)` (lines 14-35).
With fewer than two knots the assignments `outmat[:,0] = ...` (on an `n×0`
array) or `outmat[:,1] = xpts` (on an `n×1` array) raise an `IndexError`;
otherwise the `n×K` matrix is returned, one row per score. -/
def natural_cubic_spline_basis_expansion (xpts knots : List ℚ) :
    Except PyExc (List (List ℚ)) :=
  if knots.length < 2 then .error .indexError
  else .ok (xpts.map (ncsBasisRow knots))

/-! Helper lemmas about rows of the basis matrix. -/

theorem ncsBasisRow_getD (knots : List ℚ) (x : ℚ) (j : Nat) (hj : j < knots.length) :
    (ncsBasisRow knots x).getD j 0 = ncsEntry knots x j := by
  unfold ncsBasisRow
  rw [List.getD_eq_getElem?_getD, List.getElem?_map, List.getElem?_range hj]
  rfl

/-- C9: for every score vector and every knot set with at least two knots, the
basis builder succeeds and the returned matrix has first column all ones and
second column equal to the input scores. -/
theorem basis_first_two_columns (xpts knots : List ℚ) (hK : 2 ≤ knots.length) :
    ∃ M, natural_cubic_spline_basis_expansion xpts knots = .ok M ∧
      M.length = xpts.length ∧
      ∀ i, i < xpts.length →
        (M.getD i []).getD 0 0 = 1 ∧ (M.getD i []).getD 1 0 = xpts.getD i 0 := by
  refine ⟨xpts.map (ncsBasisRow knots), ?_, by simp, ?_⟩
  · unfold natural_cubic_spline_basis_expansion
    rw [if_neg (by omega)]
  · intro i hi
    have hrow : (xpts.map (ncsBasisRow knots)).getD i [] = ncsBasisRow knots (xpts.getD i 0) := by
      rw [List.getD_eq_getElem?_getD, List.getElem?_map,
        List.getElem?_eq_getElem hi]
      simp [List.getD_eq_getElem?_getD, List.getElem?_eq_getElem hi]
    rw [hrow, ncsBasisRow_getD knots _ 0 (by omega), ncsBasisRow_getD knots _ 1 (by omega)]
    exact ⟨rfl, rfl⟩

/-- Witness for C9 at a concrete input. -/
theorem basis_first_two_columns_witness :
    2 ≤ ([0, 1] : List ℚ).length ∧
      ∃ M, natural_cubic_spline_basis_expansion [1/2, 3] [0, 1] = .ok M ∧
        M.length = ([1/2, 3] : List ℚ).length ∧
        ∀ i, i < ([1/2, 3] : List ℚ).length →
          (M.getD i []).getD 0 0 = 1 ∧
          (M.getD i []).getD 1 0 = ([1/2, 3] : List ℚ).getD i 0 :=
  ⟨by decide, basis_first_two_columns [1/2, 3] [0, 1] (by decide)⟩

/-- C3 counterexample: with knots `[0,1,2]` (so `K = 3`, single interior knot
`i = 2`), the claimed column value `d_i(x) - d_{K-1}(x) = d_2(x) - d_2(x)` is
`0`, but the code's column-2 entry at `x = 3/2` is `func_H 1 (3/2) = 25/16`. -/
theorem basis_interior_column_claim_false :
    (ncsBasisRow [0, 1, 2] (3/2)).getD 2 0 ≠
      func_d [0, 1, 2] 2 (3/2) -
        func_d [0, 1, 2] (([0, 1, 2] : List ℚ).length - 1) (3/2) := by
  norm_num [ncsBasisRow, ncsEntry, func_H, func_d, pospart, List.range_succ,
    max_def]

/-- C3 amended: the basis column at (0-based) index `i`, for `2 ≤ i ≤ K-1`,
equals `d_{i-1}(x) - d_{K-1}(x)` (1-indexed `d` as in the claim), i.e. the
`d` index is one less than the column position. -/
theorem basis_interior_column (knots : List ℚ) (x : ℚ) (i : Nat)
    (h2 : 2 ≤ i) (hi : i < knots.length) :
    (ncsBasisRow knots x).getD i 0 =
      func_d knots (i - 1) x - func_d knots (knots.length - 1) x := by
  rw [ncsBasisRow_getD knots x i hi]
  unfold ncsEntry
  rw [if_neg (by omega), if_neg (by omega)]
  rfl

/-- Witness for the amended C3 at a concrete input. -/
theorem basis_interior_column_witness :
    2 ≤ 2 ∧ 2 < ([0, 1, 2] : List ℚ).length ∧
      (ncsBasisRow [0, 1, 2] (3/2)).getD 2 0 =
        func_d [0, 1, 2] 1 (3/2) - func_d [0, 1, 2] 2 (3/2) :=
  ⟨by norm_num, by norm_num, basis_interior_column [0, 1, 2] (3/2) 2 (by norm_num) (by norm_num)⟩

/-! ## The calibration closure (`calibrate_scores`, lines 80-93) -/

/-- The `method` argument of `prob_calibration_function`. -/
inductive Method
  | logistic
  | ridge
deriving DecidableEq, Repr

/-- Dot product of coefficient and feature vectors. -/
def dot (a b : List ℚ) : ℚ := (List.zipWith (· * ·) a b).sum

/-- Prediction of a fitted linear model (the decision value shared by
`RidgeCV.predict` and the decision function inside
`LogisticRegressionCV.predict_proba`): coefficients dotted with the basis row
plus the intercept. -/
def linPredict (coef : List ℚ) (intercept : ℚ) (row : List ℚ) : ℚ :=
  dot coef row + intercept

/-- Positive-class probability of a fitted binary logistic regression:
`sigmoid(z) = 1 / (1 + exp(-z))`.  The exponential is passed in as `expv`
(a positive-valued function), keeping the embedding computable. -/
def logisticProbaPos (expv : ℚ → ℚ) (coef : List ℚ) (intercept : ℚ)
    (row : List ℚ) : ℚ :=
  1 / (1 + expv (-(linPredict coef intercept row)))

/-- The two `np.where` clippings applied when `force_prob` holds
(lines 90-91): first values below `eps` are raised to `eps`, then values
above `1 - eps` are lowered to `1 - eps`. -/
def clipProb (eps v : ℚ) : ℚ :=
  if (if v < eps then eps else v) > 1 - eps then 1 - eps
  else (if v < eps then eps else v)

/-- The closure `calibrate_scores` returned by `prob_calibration_function`
(lines 80-93), applied to one new score: rebuild the basis row against the
stored knots, then for `logistic` output the regression's positive-class
probability unclipped (line 86); for `ridge` output the raw regression
prediction (line 88), clipped by `clipProb` when `force_prob` (lines 89-91). -/
def calibrate_one (method : Method) (force_prob : Bool) (eps : ℚ)
    (knots coef : List ℚ) (intercept : ℚ) (expv : ℚ → ℚ) (x : ℚ) : ℚ :=
  let row := ncsBasisRow knots x
  match method with
  | .logistic => logisticProbaPos expv coef intercept row
  | .ridge =>
      let v := linPredict coef intercept row
      if force_prob then clipProb eps v else v

/-- `calibrate_scores` on a vector of new scores (numpy operations are
entrywise, so the closure maps `calibrate_one` over the vector). -/
def calibrate_scores (method : Method) (force_prob : Bool) (eps : ℚ)
    (knots coef : List ℚ) (intercept : ℚ) (expv : ℚ → ℚ)
    (new_scores : List ℚ) : List ℚ :=
  new_scores.map (calibrate_one method force_prob eps knots coef intercept expv)

/-- C2: for every input score vector, every output of the calibration closure
lies in `[0,1]` for both methods: for `ridge` with `force_prob` each output is
clipped into `[eps, 1-eps]`; for `logistic` no clipping is needed because the
sigmoid of the fitted regression lies in `[0,1]` for any positive exponential
collaborator. -/
theorem calibration_output_in_unit_interval (expv : ℚ → ℚ)
    (hexp : ∀ z, 0 < expv z) (eps : ℚ) (h0 : 0 ≤ eps) (h1 : eps ≤ 1/2)
    (knots coef : List ℚ) (intercept : ℚ) (new_scores : List ℚ) :
    (∀ y ∈ calibrate_scores .ridge true eps knots coef intercept expv new_scores,
        eps ≤ y ∧ y ≤ 1 - eps ∧ 0 ≤ y ∧ y ≤ 1) ∧
    (∀ y ∈ calibrate_scores .logistic true eps knots coef intercept expv new_scores,
        0 ≤ y ∧ y ≤ 1) := by
  constructor
  · intro y hy
    rw [calibrate_scores, List.mem_map] at hy
    obtain ⟨x, -, hx⟩ := hy
    have hcl : y = clipProb eps (linPredict coef intercept (ncsBasisRow knots x)) := by
      rw [← hx]; rfl
    rw [hcl]
    unfold clipProb
    split_ifs with hA hB hC <;> refine ⟨?_, ?_, ?_, ?_⟩ <;> linarith
  · intro y hy
    rw [calibrate_scores, List.mem_map] at hy
    obtain ⟨x, -, hx⟩ := hy
    have hcl : y = logisticProbaPos expv coef intercept (ncsBasisRow knots x) := by
      rw [← hx]; rfl
    rw [hcl]
    unfold logisticProbaPos
    have he := hexp (-(linPredict coef intercept (ncsBasisRow knots x)))
    constructor
    · positivity
    · rw [div_le_one (by linarith)]
      linarith

/-- Witness for C2 at a concrete input. -/
theorem calibration_output_in_unit_interval_witness :
    (∀ z : ℚ, 0 < (fun _ : ℚ => (1 : ℚ)) z) ∧ (0 : ℚ) ≤ 1/10^15 ∧ (1/10^15 : ℚ) ≤ 1/2 ∧
    ((∀ y ∈ calibrate_scores .ridge true (1/10^15) [0, 1] [1, 2] 3 (fun _ => 1) [1/2],
        1/10^15 ≤ y ∧ y ≤ 1 - 1/10^15 ∧ 0 ≤ y ∧ y ≤ 1) ∧
     (∀ y ∈ calibrate_scores .logistic true (1/10^15) [0, 1] [1, 2] 3 (fun _ => 1) [1/2],
        0 ≤ y ∧ y ≤ 1)) :=
  ⟨fun _ => by norm_num, by norm_num, by norm_num,
    calibration_output_in_unit_interval (fun _ => 1) (fun _ => by norm_num)
      (1/10^15) (by norm_num) (by norm_num) [0, 1] [1, 2] 3 [1/2]⟩

/-! ## Knot selection (`prob_calibration_function`, lines 49-61) -/

/-- `np.sort` (line 59).  Any comparison sort agrees with it: a sorted
permutation of a list is unique as a list, so insertion sort is a faithful
model. -/
def npSort (l : List ℚ) : List ℚ := List.insertionSort (· ≤ ·) l

/-- `np.unique(scorevec)` (line 49): the distinct values, in increasing
order. -/
def npUnique (l : List ℚ) : List ℚ := npSort l.dedup

/-- Knot selection for `knots='sample'` (lines 49-59): start from the sorted
unique scores; if there are more than `max_knots` of them, keep the first and
last, shuffle the interior (`random.seed(random_state)` makes the shuffle a
function of `randomState` and the list, here the collaborator `shuffle`), keep
the first `max_knots - 2` shuffled interior knots, re-attach the extremes
(`np.insert(..., [0,0], [smallest, biggest])`) and re-sort. -/
def selectKnots (shuffle : Nat → List ℚ → List ℚ) (maxKnots randomState : Nat)
    (scorevec : List ℚ) : List ℚ :=
  if maxKnots < (npUnique scorevec).length then
    npSort ((npUnique scorevec).headD 0 :: (npUnique scorevec).getLastD 0 ::
      (shuffle randomState (((npUnique scorevec).drop 1).dropLast)).take (maxKnots - 2))
  else npUnique scorevec

/-! Helper lemmas about heads, last elements and sorted lists. -/

theorem headD_mem {l : List ℚ} (h : l ≠ []) (d : ℚ) : l.headD d ∈ l := by
  cases l with
  | nil => exact absurd rfl h
  | cons a t => exact List.mem_cons_self a t

theorem getLastD_mem {l : List ℚ} (h : l ≠ []) (d : ℚ) : l.getLastD d ∈ l := by
  induction l generalizing d with
  | nil => exact absurd rfl h
  | cons a t ih =>
    cases t with
    | nil => simp
    | cons b t2 =>
      rw [List.getLastD_cons]
      exact List.mem_cons_of_mem a (ih (by simp) a)

theorem headD_le_of_sorted_le {l : List ℚ} (h : l.Sorted (· ≤ ·)) :
    ∀ x ∈ l, l.headD 0 ≤ x := by
  cases l with
  | nil => simp
  | cons a t =>
    intro x hx
    rcases List.mem_cons.mp hx with hxa | hxt
    · exact le_of_eq hxa.symm
    · exact (List.sorted_cons.mp h).1 x hxt

theorem le_getLastD_of_sorted_le {l : List ℚ} (h : l.Sorted (· ≤ ·)) (d : ℚ) :
    ∀ x ∈ l, x ≤ l.getLastD d := by
  induction l generalizing d with
  | nil => simp
  | cons a t ih =>
    intro x hx
    cases t with
    | nil =>
      rcases List.mem_cons.mp hx with hxa | hxt
      · simp [hxa]
      · simp at hxt
    | cons b t2 =>
      rw [List.getLastD_cons]
      rcases List.mem_cons.mp hx with hxa | hxt
      · subst hxa
        exact le_trans ((List.sorted_cons.mp h).1 _ (getLastD_mem (by simp) x))
          (le_refl _)
      · exact ih (List.sorted_cons.mp h).2 a x hxt

theorem lt_getLastD_of_mem_dropLast {l : List ℚ} (h : l.Sorted (· < ·)) (d : ℚ) :
    ∀ x ∈ l.dropLast, x < l.getLastD d := by
  induction l generalizing d with
  | nil => simp
  | cons a t ih =>
    cases t with
    | nil => simp
    | cons b t2 =>
      intro x hx
      rw [List.getLastD_cons]
      rw [show (a :: b :: t2).dropLast = a :: (b :: t2).dropLast from rfl] at hx
      rcases List.mem_cons.mp hx with hxa | hxt
      · subst hxa
        exact (List.sorted_cons.mp h).1 _ (getLastD_mem (by simp) x)
      · exact ih (List.sorted_cons.mp h).2 a x hxt

/-! Facts about `npUnique`. -/

theorem npUnique_sorted_le (l : List ℚ) : (npUnique l).Sorted (· ≤ ·) :=
  List.sorted_insertionSort _ _

theorem npUnique_nodup (l : List ℚ) : (npUnique l).Nodup :=
  ((List.perm_insertionSort _ _).nodup_iff).mpr l.nodup_dedup

theorem npUnique_sorted_lt (l : List ℚ) : (npUnique l).Sorted (· < ·) :=
  (npUnique_sorted_le l).lt_of_le (npUnique_nodup l)

theorem mem_npUnique {l : List ℚ} {x : ℚ} : x ∈ npUnique l ↔ x ∈ l :=
  ((List.perm_insertionSort _ _).mem_iff).trans List.mem_dedup

/-- C8: when the number of unique scores exceeds `maxKnots` (and
`2 ≤ maxKnots`, as with the default 200), the selected knot set has exactly
`maxKnots` elements, is strictly increasing, all its elements are observed
score values, and it contains the global minimum and maximum of the scores. -/
theorem knot_reduction (shuffle : Nat → List ℚ → List ℚ)
    (hsh : ∀ s l, List.Perm (shuffle s l) l)
    (maxKnots randomState : Nat) (scorevec : List ℚ)
    (hmk : 2 ≤ maxKnots)
    (hcount : maxKnots < (npUnique scorevec).length) :
    (selectKnots shuffle maxKnots randomState scorevec).length = maxKnots ∧
    (selectKnots shuffle maxKnots randomState scorevec).Sorted (· < ·) ∧
    (∀ x ∈ selectKnots shuffle maxKnots randomState scorevec, x ∈ scorevec) ∧
    (∃ m M, m ∈ selectKnots shuffle maxKnots randomState scorevec ∧
      M ∈ selectKnots shuffle maxKnots randomState scorevec ∧
      m ∈ scorevec ∧ M ∈ scorevec ∧
      ∀ x ∈ scorevec, m ≤ x ∧ x ≤ M) := by
  have hifsel : selectKnots shuffle maxKnots randomState scorevec =
      npSort ((npUnique scorevec).headD 0 :: (npUnique scorevec).getLastD 0 ::
        (shuffle randomState (((npUnique scorevec).drop 1).dropLast)).take (maxKnots - 2)) := by
    unfold selectKnots
    rw [if_pos hcount]
  obtain ⟨a, t, hkv⟩ : ∃ a t, npUnique scorevec = a :: t := by
    cases hc : npUnique scorevec with
    | nil => rw [hc] at hcount; simp at hcount
    | cons a t => exact ⟨a, t, rfl⟩
  have hkvlen : 3 ≤ (npUnique scorevec).length := by omega
  have htne : t ≠ [] := by
    intro habs
    rw [hkv, habs] at hkvlen
    simp at hkvlen
  have hsortle : (npUnique scorevec).Sorted (· ≤ ·) := npUnique_sorted_le scorevec
  have hsortlt : (npUnique scorevec).Sorted (· < ·) := npUnique_sorted_lt scorevec
  have hnd : (npUnique scorevec).Nodup := npUnique_nodup scorevec
  -- abbreviations
  set kv := npUnique scorevec with hkvdef
  set s := kv.headD 0 with hs
  set b := kv.getLastD 0 with hb
  set inter := (kv.drop 1).dropLast with hinter
  set red := (shuffle randomState inter).take (maxKnots - 2) with hred
  have hperm : List.Perm (npSort (s :: b :: red)) (s :: b :: red) :=
    List.perm_insertionSort _ _
  -- positions: head and last of kv
  have hsa : s = a := by rw [hs, hkv]; rfl
  have hbt : b = t.getLastD a := by rw [hb, hkv, List.getLastD_cons]
  have hinter_t : inter = t.dropLast := by rw [hinter, hkv]; rfl
  have ha_lt : ∀ x ∈ t, a < x := (List.sorted_cons.mp (hkv ▸ hsortlt)).1
  have hsorted_t_lt : t.Sorted (· < ·) := (List.sorted_cons.mp (hkv ▸ hsortlt)).2
  -- every interior element is strictly between s and b
  have hinter_lt_b : ∀ x ∈ inter, x < b := by
    intro x hx
    rw [hinter_t] at hx
    rw [hbt]
    exact lt_getLastD_of_mem_dropLast hsorted_t_lt a x hx
  have hs_lt_inter : ∀ x ∈ inter, s < x := by
    intro x hx
    rw [hinter_t] at hx
    rw [hsa]
    exact ha_lt x (List.dropLast_subset t hx)
  have hs_lt_b : s < b := by
    rw [hsa, hbt]
    exact ha_lt _ (getLastD_mem htne a)
  -- membership chains
  have hred_sub_inter : ∀ x ∈ red, x ∈ inter := by
    intro x hx
    exact ((hsh randomState inter).mem_iff).mp (List.take_subset _ _ hx)
  have hinter_sub_kv : ∀ x ∈ inter, x ∈ kv := by
    intro x hx
    exact List.drop_subset 1 kv (List.dropLast_subset _ hx)
  have hs_mem_kv : s ∈ kv := headD_mem (by rw [hkv]; simp) 0
  have hb_mem_kv : b ∈ kv := getLastD_mem (by rw [hkv]; simp) 0
  have hpre_sub_kv : ∀ x ∈ s :: b :: red, x ∈ kv := by
    intro x hx
    rcases List.mem_cons.mp hx with h1 | hx
    · exact h1 ▸ hs_mem_kv
    rcases List.mem_cons.mp hx with h2 | hx
    · exact h2 ▸ hb_mem_kv
    · exact hinter_sub_kv x (hred_sub_inter x hx)
  -- nodup of the pre-sort list
  have hred_nodup : red.Nodup := by
    have h1 : inter.Nodup :=
      (List.Sublist.nodup (List.Sublist.trans (List.dropLast_sublist _)
        (List.drop_sublist 1 kv)) hnd)
    have h2 : (shuffle randomState inter).Nodup :=
      ((hsh randomState inter).nodup_iff).mpr h1
    exact List.Sublist.nodup (List.take_sublist _ _) h2
  have hpre_nodup : (s :: b :: red).Nodup := by
    refine List.nodup_cons.mpr ⟨?_, List.nodup_cons.mpr ⟨?_, hred_nodup⟩⟩
    · intro hmem
      rcases List.mem_cons.mp hmem with h1 | h1
      · exact absurd h1 (ne_of_lt hs_lt_b)
      · exact absurd rfl (ne_of_gt (hs_lt_inter s (hred_sub_inter s h1)))
    · intro hmem
      exact absurd rfl (ne_of_gt (hinter_lt_b b (hred_sub_inter b hmem)))
  rw [hifsel]
  refine ⟨?_, ?_, ?_, ?_⟩
  · -- length
    rw [hperm.length_eq]
    have h1 : (shuffle randomState inter).length = inter.length :=
      (hsh randomState inter).length_eq
    have h2 : inter.length = kv.length - 2 := by
      rw [hinter, List.length_dropLast, List.length_drop]
      omega
    have h3 : red.length = maxKnots - 2 := by
      rw [hred, List.length_take, h1, h2]
      omega
    simp only [List.length_cons, h3]
    omega
  · -- strictly sorted
    refine List.Sorted.lt_of_le ?_ ((hperm.nodup_iff).mpr hpre_nodup)
    exact List.sorted_insertionSort _ _
  · -- subset of the observed scores
    intro x hx
    exact mem_npUnique.mp (hpre_sub_kv x ((hperm.mem_iff).mp hx))
  · -- contains the min and max of the scores
    refine ⟨s, b, (hperm.mem_iff).mpr (List.mem_cons_self _ _),
      (hperm.mem_iff).mpr (List.mem_cons_of_mem _ (List.mem_cons_self _ _)),
      mem_npUnique.mp hs_mem_kv, mem_npUnique.mp hb_mem_kv, ?_⟩
    intro x hx
    have hxkv : x ∈ kv := mem_npUnique.mpr hx
    exact ⟨headD_le_of_sorted_le hsortle x hxkv,
      le_getLastD_of_sorted_le hsortle 0 x hxkv⟩

/-- Witness for C8 at a concrete input: five unique scores, `maxKnots = 3`,
identity shuffle. -/
theorem knot_reduction_witness :
    (∀ s l, List.Perm ((fun (_ : Nat) (l : List ℚ) => l) s l) l) ∧
    2 ≤ 3 ∧ 3 < (npUnique [10, 20, 30, 40, 50]).length ∧
    ((selectKnots (fun _ l => l) 3 942 [10, 20, 30, 40, 50]).length = 3 ∧
      (selectKnots (fun _ l => l) 3 942 [10, 20, 30, 40, 50]).Sorted (· < ·) ∧
      (∀ x ∈ selectKnots (fun _ l => l) 3 942 [10, 20, 30, 40, 50],
        x ∈ ([10, 20, 30, 40, 50] : List ℚ)) ∧
      (∃ m M, m ∈ selectKnots (fun _ l => l) 3 942 [10, 20, 30, 40, 50] ∧
        M ∈ selectKnots (fun _ l => l) 3 942 [10, 20, 30, 40, 50] ∧
        m ∈ ([10, 20, 30, 40, 50] : List ℚ) ∧ M ∈ ([10, 20, 30, 40, 50] : List ℚ) ∧
        ∀ x ∈ ([10, 20, 30, 40, 50] : List ℚ), m ≤ x ∧ x ≤ M)) :=
  ⟨fun _ _ => List.Perm.refl _, by norm_num, by decide,
    knot_reduction (fun _ l => l) (fun _ _ => List.Perm.refl _) 3 942
      [10, 20, 30, 40, 50] (by norm_num) (by decide)⟩

/-! ## `prob_calibration_function` up to the regression fit (lines 38-61) -/

/-- The stages of `prob_calibration_function` that run before the opaque
regression collaborator is fitted (lines 49-61): knot selection followed by
the basis expansion of the score vector.  On success the selected knots and
the design matrix are handed to the regression; any exception raised before
that propagates. -/
def prob_calibration_stage (shuffle : Nat → List ℚ → List ℚ)
    (maxKnots randomState : Nat) (scorevec : List ℚ) :
    Except PyExc (List ℚ × List (List ℚ)) :=
  match natural_cubic_spline_basis_expansion scorevec
      (selectKnots shuffle maxKnots randomState scorevec) with
  | .error e => .error e
  | .ok X_mat => .ok (selectKnots shuffle maxKnots randomState scorevec, X_mat)

/-- C7 counterexample: a score vector with a single distinct value makes
`prob_calibration_function` raise an `IndexError` (from `outmat[:,1] = xpts`
on an `n×1` matrix), not the `InsufficientDataError` the claim requires —
no such exception class exists in the code at all. -/
theorem single_knot_error_claim_false :
    prob_calibration_stage (fun _ l => l) 200 942 [7, 7] =
      .error .indexError ∧
    PyExc.indexError ≠ PyExc.insufficientDataError := by
  constructor
  · rfl
  · decide

/-- C7 amended: with fewer than two distinct scores (and `2 ≤ max_knots`, as
with the default 200), fitting fails, but with an `IndexError` raised inside
the spline basis expansion rather than an `InsufficientDataError`. -/
theorem single_knot_raises_indexError (shuffle : Nat → List ℚ → List ℚ)
    (maxKnots randomState : Nat) (scorevec : List ℚ)
    (hu : (npUnique scorevec).length < 2) (hmk : 2 ≤ maxKnots) :
    prob_calibration_stage shuffle maxKnots randomState scorevec =
      .error .indexError := by
  have hsel : selectKnots shuffle maxKnots randomState scorevec =
      npUnique scorevec := by
    unfold selectKnots
    rw [if_neg (by omega)]
  unfold prob_calibration_stage
  rw [hsel]
  unfold natural_cubic_spline_basis_expansion
  rw [if_pos hu]

/-- Witness for the amended C7 at a concrete input. -/
theorem single_knot_raises_indexError_witness :
    (npUnique [7, 7]).length < 2 ∧ 2 ≤ 200 ∧
      prob_calibration_stage (fun _ l => l) 200 942 [7, 7] =
        .error .indexError :=
  ⟨by decide, by norm_num,
    single_knot_raises_indexError (fun _ l => l) 200 942 [7, 7]
      (by decide) (by norm_num)⟩

/-! ## Estimator state model for the cross-validation loops

Estimators are identified by numeric ids.  The store records, for each id,
the sample-index set it was last `fit` on (`none` = never fitted).  `clone`
(scikit-learn) allocates a fresh, unfitted estimator with the same
configuration; `fit` records the training indices; `predict_proba` reads
without mutating.  A score written into the out-of-fold array is tagged with
the id of the estimator whose `predict_proba` produced it. -/

structure EstStore where
  next : Nat
  fitted : Nat -> Option (List Nat)

/-- A fold produced by the (external) stratified k-fold splitter: the held-out
`test` indices and the complementary `train` indices. -/
structure Fold where
  train : List Nat
  test : List Nat
deriving DecidableEq, Repr

/-- `clone(src)`: a fresh estimator id, unfitted, same configuration. -/
def cloneEst (st : EstStore) (_src : Nat) : Nat × EstStore :=
  (st.next, { next := st.next + 1,
              fitted := fun i => if i = st.next then none else st.fitted i })

/-- `est.fit(X[tr], y[tr])`: record the training indices of `est`. -/
def fitEst (st : EstStore) (est : Nat) (tr : List Nat) : EstStore :=
  { next := st.next,
    fitted := fun i => if i = est then some tr else st.fitted i }

/-- One iteration of the fold loop in `SplineCalibratedClassifierCV.fit`
(calibration.py lines 105-113): clone the base estimator, fit the clone on
the fold's training indices, and write the clone's held-out scores into the
out-of-fold array positions `test_idx` (tagged with the clone's id). -/
def cvFoldStep (base : Nat) (acc : EstStore × (Nat -> Option Nat)) (f : Fold) :
    EstStore × (Nat -> Option Nat) :=
  let p := cloneEst acc.1 base
  (fitEst p.2 p.1 f.train,
   fun j => if j ∈ f.test then some p.1 else acc.2 j)

/-- The k-fold branch of `SplineCalibratedClassifierCV.fit` (lines 100-117):
run the fold loop starting from `y_pred = np.zeros(len(y))` (no position
written yet), then clone once more and fit the full-data classifier on all
`n` sample indices.  Returns the final store, the full-data classifier id and
the provenance of each out-of-fold score. -/
def fitKFold (base : Nat) (folds : List Fold) (n : Nat) (st : EstStore) :
    EstStore × Nat × (Nat -> Option Nat) :=
  let r := folds.foldl (cvFoldStep base) (st, fun _ => none)
  let p := cloneEst r.1 base
  (fitEst p.2 p.1 (List.range n), p.1, r.2)

/-- The prefit branch of `SplineCalibratedClassifierCV.fit` (lines 95-97):
the base estimator itself becomes `uncalibrated_classifier` and only its
`predict_proba` is called, so the store is unchanged. -/
def fitPrefit (base : Nat) (st : EstStore) : EstStore × Nat := (st, base)

/-- One iteration of the fold loop in `train_and_calibrate_cv`
(calibration_utils.py lines 99-108): `model_copy = clone(model)` is fit on
the training indices, but line 108 writes
`y_pred_xval[test] = model.predict_proba(...)` — the scores come from the
caller's `model`, not from the fold-trained `model_copy`. -/
def tcFoldStep (model : Nat) (acc : EstStore × (Nat -> Option Nat)) (f : Fold) :
    EstStore × (Nat -> Option Nat) :=
  let p := cloneEst acc.1 model
  (fitEst p.2 p.1 f.train,
   fun j => if j ∈ f.test then some model else acc.2 j)

/-- `train_and_calibrate_cv(model, X_tr, y_tr, cv)` (lines 95-114), given the
splitter's folds: the fold loop above, then one more clone fit on all
samples.  (As written the function would in fact raise a `NameError` first:
neither `cross_validation` nor `clone` is imported in calibration_utils.py;
this model gives the loop its intended referents to exhibit the deeper
provenance bug.) -/
def train_and_calibrate_cv (model : Nat) (folds : List Fold) (n : Nat)
    (st : EstStore) : EstStore × Nat × (Nat -> Option Nat) :=
  let r := folds.foldl (tcFoldStep model) (st, fun _ => none)
  let p := cloneEst r.1 model
  (fitEst p.2 p.1 (List.range n), p.1, r.2)

/-- Concrete two-fold partition of four samples used as a failing input. -/
def exFolds : List Fold := [⟨[2, 3], [0, 1]⟩, ⟨[0, 1], [2, 3]⟩]

/-- Initial store: the caller's `model`, id 0, already fitted on all four
sample indices (the situation after the caller has trained it once). -/
def exStore : EstStore :=
  { next := 1, fitted := fun i => if i = 0 then some [0, 1, 2, 3] else none }

/-- C1: evaluation at a failing input.  In `train_and_calibrate_cv` the score
of sample 0 is produced by estimator 0, the caller's `model`, whose recorded
training set `[0,1,2,3]` contains sample 0: the out-of-fold array is not
leakage-free, because line 108 predicts with `model` instead of the
fold-trained clone `model_copy`.  By contrast the class's fit loop
(`fitKFold`) tags sample 0 with clone 1, trained on `[2,3]`, which does not
contain 0 — matching the claim. -/
theorem oof_leakage_eval :
    (train_and_calibrate_cv 0 exFolds 4 exStore).2.2 0 = some 0 ∧
    (train_and_calibrate_cv 0 exFolds 4 exStore).1.fitted 0 = some [0, 1, 2, 3] ∧
    0 ∈ [0, 1, 2, 3] ∧
    (fitKFold 0 exFolds 4 exStore).2.2 0 = some 1 ∧
    (fitKFold 0 exFolds 4 exStore).1.fitted 1 = some [2, 3] ∧
    0 ∉ [2, 3] := by
  refine ⟨rfl, rfl, by decide, rfl, rfl, by decide⟩

/-- The fold loop of `SplineCalibratedClassifierCV.fit` never refits an
estimator that existed before it started, and ids only grow. -/
theorem cvFoldLoop_preserves (base : Nat) (folds : List Fold) (st : EstStore)
    (yp : Nat -> Option Nat) (i : Nat) (hi : i < st.next) :
    (folds.foldl (cvFoldStep base) (st, yp)).1.fitted i = st.fitted i ∧
    st.next ≤ (folds.foldl (cvFoldStep base) (st, yp)).1.next := by
  induction folds generalizing st yp with
  | nil => exact ⟨rfl, le_refl _⟩
  | cons f fs ih =>
    rw [List.foldl_cons,
      show cvFoldStep base (st, yp) f =
        ((cvFoldStep base (st, yp) f).1, (cvFoldStep base (st, yp) f).2) from rfl]
    have hstep1 : (cvFoldStep base (st, yp) f).1.next = st.next + 1 := rfl
    have hstep2 : (cvFoldStep base (st, yp) f).1.fitted i = st.fitted i := by
      show (if i = st.next then some f.train
        else if i = st.next then none else st.fitted i) = st.fitted i
      rw [if_neg (by omega), if_neg (by omega)]
    obtain ⟨h1, h2⟩ := ih (cvFoldStep base (st, yp) f).1 (cvFoldStep base (st, yp) f).2
      (by rw [hstep1]; omega)
    constructor
    · rw [h1, hstep2]
    · rw [hstep1] at h2; omega

/-- C10: `fit` never fits the supplied base estimator itself.  In k-fold mode
only fresh clones are trained, so after `fit` the base estimator's recorded
training state is exactly what it was before; in prefit mode the store is
untouched entirely. -/
theorem base_estimator_untouched (base : Nat) (folds : List Fold) (n : Nat)
    (st : EstStore) (hbase : base < st.next) :
    (fitKFold base folds n st).1.fitted base = st.fitted base ∧
    (fitPrefit base st).1 = st := by
  obtain ⟨h1, h2⟩ := cvFoldLoop_preserves base folds st (fun _ => none) base hbase
  constructor
  · show (if base = (folds.foldl (cvFoldStep base) (st, fun _ => none)).1.next
        then some (List.range n)
        else if base = (folds.foldl (cvFoldStep base) (st, fun _ => none)).1.next
        then none
        else (folds.foldl (cvFoldStep base) (st, fun _ => none)).1.fitted base)
      = st.fitted base
    rw [if_neg (by omega), if_neg (by omega), h1]
  · rfl

/-- Witness for C10 at a concrete input. -/
theorem base_estimator_untouched_witness :
    0 < exStore.next ∧
    ((fitKFold 0 exFolds 4 exStore).1.fitted 0 = exStore.fitted 0 ∧
      (fitPrefit 0 exStore).1 = exStore) :=
  ⟨by decide, base_estimator_untouched 0 exFolds 4 exStore (by decide)⟩

/-! ## `predict_proba` / `predict` (calibration.py lines 129-166) -/

/-- `__init__` (lines 71-77) sets both `uncalibrated_classifier` and
`calib_func` to `None`; `fit` replaces them. -/
structure CalibClassifierState where
  uncalibrated_classifier : Option Nat
  calib_func : Option (ℚ -> ℚ)

/-- The state of a freshly constructed `SplineCalibratedClassifierCV`. -/
def initCalibState : CalibClassifierState := ⟨none, none⟩

/-- `predict_proba` (lines 129-148): the commented-out `check_is_fitted`
(line 145) never runs, so on an unfitted instance line 146 evaluates
`self.uncalibrated_classifier.predict_proba(X)` with the attribute still
`None`, raising an `AttributeError`; with a classifier but no calibration
function, calling `None` raises a `TypeError`.  When fitted, each positive
score is calibrated and the two-column array `[1-p, p]` is returned. -/
def predict_proba (baseScores : Nat -> List ℚ) (st : CalibClassifierState) :
    Except PyExc (List (ℚ × ℚ)) :=
  match st.uncalibrated_classifier with
  | none => .error .attributeError
  | some c =>
    match st.calib_func with
    | none => .error .typeError
    | some f => .ok ((baseScores c).map (fun s => (1 - f s, f s)))

/-- `np.argmax` over a two-entry row: the first index attaining the maximum
(index 0 on ties). -/
def npArgmax2 (a b : ℚ) : Nat := if a < b then 1 else 0

/-- The per-sample core of `predict` (line 166):
`classes_[np.argmax([1-p, p])]`, with `c0, c1` the classifier's ordered class
labels and `p` the calibrated probability. -/
def predict_one (c0 c1 : ℚ) (p : ℚ) : ℚ :=
  if npArgmax2 (1 - p) p = 1 then c1 else c0

/-- `predict` (lines 151-166): the commented-out `check_is_fitted`
(line 165) never runs, so on an unfitted instance the attribute access
`self.uncalibrated_classifier.classes_` raises an `AttributeError`;
otherwise each row of `predict_proba` is mapped through `predict_one`. -/
def predict (baseScores : Nat -> List ℚ) (classesOf : Nat -> ℚ × ℚ)
    (st : CalibClassifierState) : Except PyExc (List ℚ) :=
  match st.uncalibrated_classifier with
  | none => .error .attributeError
  | some c =>
    (predict_proba baseScores st).map
      (fun rows => rows.map (fun pr => predict_one (classesOf c).1 (classesOf c).2
        (pr.2)))

/-- C6: evaluation at the failing input.  Calling `predict_proba` or
`predict` on a freshly constructed (unfitted) instance raises an
`AttributeError` (`NoneType` has no attribute), not the `NotFittedError` the
claim requires: the `check_is_fitted` guards are commented out. -/
theorem unfitted_predict_raises_attributeError :
    predict_proba (fun _ => []) initCalibState = .error .attributeError ∧
    predict (fun _ => []) (fun _ => (0, 1)) initCalibState =
      .error .attributeError ∧
    PyExc.attributeError ≠ PyExc.notFittedError :=
  ⟨rfl, rfl, by decide⟩

/-- C5 counterexample: at calibrated probability exactly `1/2` the row is
`[1/2, 1/2]`, `np.argmax` ties to index 0, and `predict` returns the first
(negative) class — contradicting "positive class iff p ≥ 0.5 (including
exactly 0.5)". -/
theorem predict_at_half_claim_false :
    ¬ (predict_one 0 1 (1/2) = 1 ↔ (1/2 : ℚ) ≥ 1/2) := by
  have h0 : predict_one 0 1 (1/2) = 0 := by
    norm_num [predict_one, npArgmax2]
  intro h
  have h2 : predict_one 0 1 (1/2) = 1 := h.mpr (le_refl _)
  rw [h0] at h2
  exact absurd h2 (by norm_num)

/-- C5 amended: `predict` returns the class label at the argmax of
`[1-p, p]`, which is the positive class iff `p > 0.5` strictly; at exactly
`0.5` the argmax tie resolves to index 0, the negative class. -/
theorem predict_argmax (c0 c1 p : ℚ) (hne : c0 ≠ c1) :
    predict_one c0 c1 p = (if 1/2 < p then c1 else c0) ∧
    (predict_one c0 c1 p = c1 ↔ 1/2 < p) := by
  have harg : npArgmax2 (1 - p) p = 1 ↔ 1/2 < p := by
    unfold npArgmax2
    constructor
    · intro h
      by_contra hc
      rw [if_neg (by intro hlt; apply hc; linarith)] at h
      exact absurd h (by norm_num)
    · intro h
      rw [if_pos (by linarith)]
  constructor
  · unfold predict_one
    by_cases hp : 1/2 < p
    · rw [if_pos (harg.mpr hp), if_pos hp]
    · rw [if_neg (fun h => hp (harg.mp h)), if_neg hp]
  · unfold predict_one
    constructor
    · intro h
      by_cases hp : npArgmax2 (1 - p) p = 1
      · exact harg.mp hp
      · rw [if_neg hp] at h
        exact absurd h hne
    · intro hp
      rw [if_pos (harg.mpr hp)]

/-- Witness for the amended C5 at a concrete input. -/
theorem predict_argmax_witness :
    (0 : ℚ) ≠ 1 ∧
      (predict_one 0 1 (3/4) = (if 1/2 < (3/4 : ℚ) then 1 else 0) ∧
        (predict_one 0 1 (3/4) = 1 ↔ (1/2 : ℚ) < 3/4)) :=
  ⟨by norm_num, predict_argmax 0 1 (3/4) (by norm_num)⟩

/-! ## Randomness and reproducibility (C4)

The knot shuffle is preceded by `random.seed(random_state)` (line 55), so its
outcome is a function of `random_state` and the list only — that is the
`shuffle` collaborator already threaded through `selectKnots`.  The fold
splitter in `SplineCalibratedClassifierCV.fit` (line 104) is
`StratifiedKFold(n_splits=cv, shuffle=True)` with NO `random_state`: by the
collaborator's contract its permutation is then drawn from the ambient global
random state, modelled as the extra argument `g`. -/

/-- The `random_state` argument the source passes to `StratifiedKFold`
(line 104): omitted, i.e. `None`. -/
def skfRandomState : Option Nat := none

/-- Effective seed used by a shuffling splitter: the supplied `random_state`
if any, otherwise the ambient global random state `g`. -/
def effectiveSeed (rs : Option Nat) (g : Nat) : Nat := rs.getD g

/-- The fold partition a run of `fit` obtains, given the splitter
collaborator `split` (a function of the effective seed) and the ambient
global random state `g` of that run. -/
def fitFoldPartition (split : Nat -> List Fold) (g : Nat) : List Fold :=
  split (effectiveSeed skfRandomState g)

/-- The knot set a run of `fit` derives: `selectKnots` seeds the shuffle with
`random_state`, so the ambient state `g` is not consulted. -/
def fitKnotSet (shuffle : Nat -> List ℚ -> List ℚ) (maxKnots randomState : Nat)
    (scorevec : List ℚ) (_g : Nat) : List ℚ :=
  selectKnots shuffle maxKnots randomState scorevec

/-- A conforming shuffling splitter for four samples and two folds: for each
effective seed it returns a valid stratified-style partition, but different
seeds give different partitions (legitimate, since with `random_state=None`
the contract fixes nothing across runs). -/
def exSplit : Nat -> List Fold := fun g =>
  if g % 2 = 0 then [⟨[2, 3], [0, 1]⟩, ⟨[0, 1], [2, 3]⟩]
  else [⟨[1, 3], [0, 2]⟩, ⟨[0, 2], [1, 3]⟩]

/-- `folds` is a partition of `range n` into complementary train/test pairs,
each index held out exactly once. -/
def IsKFoldPartition (n : Nat) (folds : List Fold) : Prop :=
  (∀ f ∈ folds, f.train = (List.range n).filter (fun j => j ∉ f.test)) ∧
  (∀ j < n, (folds.filter (fun f => j ∈ f.test)).length = 1)

instance (n : Nat) (folds : List Fold) : Decidable (IsKFoldPartition n folds) := by
  unfold IsKFoldPartition
  exact instDecidableAnd

/-- C4 counterexample: two runs of `fit` with identical inputs and
configuration but different ambient global states obtain different k-fold
partitions from a conforming splitter, because the source passes no
`random_state` to `StratifiedKFold(shuffle=True)`.  Both partitions are
valid two-fold partitions of the four samples. -/
theorem kfold_partition_not_run_deterministic :
    fitFoldPartition exSplit 0 ≠ fitFoldPartition exSplit 1 ∧
    IsKFoldPartition 4 (exSplit 0) ∧ IsKFoldPartition 4 (exSplit 1) := by
  refine ⟨by decide, by decide, by decide⟩

/-- C4 amended: the knot subsampling is seeded by `random_state` and thus
identical across runs (it never consults the ambient state `g`); and had a
`random_state` been passed to the splitter, the partition would also be
run-independent.  Only the unseeded splitter call breaks full-run
determinism. -/
theorem knot_selection_run_deterministic (shuffle : Nat -> List ℚ -> List ℚ)
    (maxKnots randomState : Nat) (scorevec : List ℚ)
    (split : Nat -> List Fold) (g1 g2 : Nat) :
    fitKnotSet shuffle maxKnots randomState scorevec g1 =
      fitKnotSet shuffle maxKnots randomState scorevec g2 ∧
    (∀ s : Nat, split (effectiveSeed (some s) g1) =
      split (effectiveSeed (some s) g2)) :=
  ⟨rfl, fun _ => rfl⟩

end MLInsights
